import Mathlib

/-
  Verification development for the offline-login-interface repository.

  The embedding models, from the TypeScript sources:
  * the local IndexedDB store (`src/lib/indexedDB.ts`): cached users, the
    `userDetails` object store with its auto-increment key generator, and the
    `faceData` store;
  * the sync service (`src/services/syncService.ts`): `syncPendingData`,
    `syncRecord`, status broadcasting, with explicit fault injection for the
    fallible IndexedDB / Supabase operations;
  * the auth service (`src/services/authService.ts`): `loginOnline`,
    `loginOffline`, `loginWithFace`, `login`, parameterised over the remote
    `signInWithPassword` outcome and the opaque hash/encrypt primitives;
  * the liveness analysis (`faceRecognitionService.performLivenessCheck`),
    parameterised over the host square-root and Euclidean-distance routines;
  * the face-login identity resolution loop (`FaceLogin.handleFaceLogin`).
-/

namespace OfflineLogin

/-- A locally stored profile record (`LocalUserDetails` in `src/lib/indexedDB.ts`).
`id` is the auto-increment surrogate key; it is absent on records that were
never stored. -/
structure LocalUserDetails where
  id : Option Nat
  userId : String
  name : String
  age : Int
  phone : String
  dateOfBirth : String
  pendingSync : Bool
  updatedAt : Int
deriving DecidableEq, Repr

/-- A row of the remote `user_details` table. -/
structure RemoteRecord where
  userId : String
  name : String
  age : Int
  phone : String
  dateOfBirth : String
  updatedAt : Int
deriving DecidableEq, Repr

/-- The local `userDetails` object store together with its auto-increment key
generator (`keyPath: 'id', autoIncrement: true`). -/
structure DetailsStore where
  records : List LocalUserDetails
  nextId : Nat
deriving DecidableEq, Repr

/-- `supabase.from('user_details').select('updated_at').eq('user_id', uid).maybeSingle()`. -/
def remoteGet (remote : List RemoteRecord) (uid : String) : Option RemoteRecord :=
  remote.find? (fun rr => rr.userId == uid)

/-- The remote row built from a local record's fields (the `update`/`insert`
payload in `syncRecord`). -/
def toRow (r : LocalUserDetails) : RemoteRecord :=
  ⟨r.userId, r.name, r.age, r.phone, r.dateOfBirth, r.updatedAt⟩

/-- `supabase.from('user_details').update({...}).eq('user_id', record.userId)`. -/
def remoteUpdate (remote : List RemoteRecord) (r : LocalUserDetails) : List RemoteRecord :=
  remote.map (fun rr => if rr.userId == r.userId then toRow r else rr)

/-- `indexedDBService.markAsSynced`: fetch the record stored under key `i` and
clear its `pendingSync` flag; a missing record is a silent no-op. -/
def markAsSynced (st : DetailsStore) (i : Nat) : DetailsStore :=
  { st with records := st.records.map (fun r =>
      if r.id == some i then { r with pendingSync := false } else r) }

/-- The remote side of `SyncService.syncRecord`: last-writer-wins push.
If a remote row exists it is overwritten only when the local timestamp is
strictly greater; otherwise the remote store is left alone.  With no remote
row the local record is inserted. -/
def syncRecordRemote (remote : List RemoteRecord) (r : LocalUserDetails) :
    List RemoteRecord :=
  match remoteGet remote r.userId with
  | some existing =>
      if existing.updatedAt < r.updatedAt then remoteUpdate remote r else remote
  | none => remote ++ [toRow r]

/-- `SyncService.syncRecord` in full: the remote push followed by
`markAsSynced(record.id)` (guarded by `if (record.id)`). -/
def syncRecord (remote : List RemoteRecord) (st : DetailsStore)
    (r : LocalUserDetails) : List RemoteRecord × DetailsStore :=
  (syncRecordRemote remote r,
   match r.id with
   | some i => markAsSynced st i
   | none => st)

/-- A `SyncStatus` value as broadcast to listeners. -/
structure SyncStatusMsg where
  isSyncing : Bool
  lastSyncTime : Option Nat
  pendingCount : Nat
  error : Option String
deriving DecidableEq, Repr

/-- The observable state of the sync service: its two private fields, the two
stores it reads and writes, the trace of broadcast statuses, and a count of
calls made to `getPendingSyncRecords` (so that "performs no store reads" is
part of state equality). -/
structure SyncState where
  isSyncing : Bool
  lastSyncTime : Option Nat
  store : DetailsStore
  remote : List RemoteRecord
  broadcasts : List SyncStatusMsg
  fetchCalls : Nat
deriving DecidableEq, Repr

/-- Fault injection for the fallible operations of a sync run: whether the
n-th call to `getPendingSyncRecords` rejects, whether the Supabase traffic for
a given userId rejects, and whether `markAsSynced` for a given key rejects. -/
structure SyncFaults where
  fetchErr : Nat → Bool
  remoteErr : String → Bool
  markErr : Nat → Bool

/-- `indexedDBService.getPendingSyncRecords`: all stored records, filtered to
those with `pendingSync === true`. -/
def getPendingSyncRecords (st : DetailsStore) : List LocalUserDetails :=
  st.records.filter (fun r => r.pendingSync == true)

/-- One call to `getPendingSyncRecords` from the sync service, which may
reject according to the fault spec. -/
def fetchPending (fs : SyncFaults) (s : SyncState) :
    Except String (List LocalUserDetails) × SyncState :=
  let s' := { s with fetchCalls := s.fetchCalls + 1 }
  if fs.fetchErr s.fetchCalls then (Except.error "Failed to read pending records", s')
  else (Except.ok (getPendingSyncRecords s.store), s')

/-- `syncRecord` with fault injection.  A remote fault rejects before any
state change; a `markAsSynced` fault rejects after the remote push but before
the pending flag is cleared — exactly the suspension points of the source. -/
def syncRecordE (fs : SyncFaults) (s : SyncState) (r : LocalUserDetails) :
    SyncState × Option String :=
  if fs.remoteErr r.userId then (s, some "Remote error")
  else
    let rem := syncRecordRemote s.remote r
    match r.id with
    | some i =>
        if fs.markErr i then ({ s with remote := rem }, some "Store error")
        else ({ s with remote := rem, store := markAsSynced s.store i }, none)
    | none => ({ s with remote := rem }, none)

/-- The `for (const record of pendingRecords) await this.syncRecord(record)`
loop: a rejection propagates immediately, abandoning the remaining records. -/
def processAll (fs : SyncFaults) : List LocalUserDetails → SyncState → SyncState × Option String
  | [], s => (s, none)
  | r :: rs, s =>
      match syncRecordE fs s r with
      | (s', none) => processAll fs rs s'
      | (s', some e) => (s', some e)

/-- The `catch` block of `syncPendingData`: clear `isSyncing`, re-fetch the
pending set, and broadcast the error with the freshly recomputed count.  If
the re-fetch itself rejects the rejection escapes and nothing is broadcast. -/
def catchBlock (fs : SyncFaults) (e : String) (s : SyncState) : SyncState :=
  let s1 := { s with isSyncing := false }
  match fetchPending fs s1 with
  | (Except.ok pending, s2) =>
      { s2 with broadcasts := s2.broadcasts ++ [⟨false, none, pending.length, some e⟩] }
  | (Except.error _, s2) => s2

/-- `SyncService.syncPendingData`, with `Date.now()` passed in as `now`. -/
def syncPendingData (fs : SyncFaults) (now : Nat) (s : SyncState) : SyncState :=
  if s.isSyncing then s
  else
    let s1 := { s with isSyncing := true,
                       broadcasts := s.broadcasts ++ [⟨true, none, 0, none⟩] }
    match fetchPending fs s1 with
    | (Except.error e, s2) => catchBlock fs e s2
    | (Except.ok pending, s2) =>
      if pending.isEmpty then
        { s2 with isSyncing := false, lastSyncTime := some now,
                  broadcasts := s2.broadcasts ++ [⟨false, some now, 0, none⟩] }
      else
        match processAll fs pending s2 with
        | (s3, none) =>
            { s3 with isSyncing := false, lastSyncTime := some now,
                      broadcasts := s3.broadcasts ++ [⟨false, some now, 0, none⟩] }
        | (s3, some e) => catchBlock fs e s3

/-- A fault spec under which every operation succeeds. -/
def noFaults : SyncFaults :=
  ⟨fun _ => false, fun _ => false, fun _ => false⟩

/-- C1: for a pending record whose user already has a remote row, `syncRecord`
pushes the local fields iff the local timestamp is strictly greater, leaving
the remote row untouched otherwise; with no remote row the record is inserted;
and in every case the stored record under the local surrogate key has its
`pendingSync` flag cleared afterwards. -/
theorem syncRecord_last_writer_wins (remote : List RemoteRecord)
    (st : DetailsStore) (r : LocalUserDetails) :
    (∀ r0, remoteGet remote r.userId = some r0 →
        ((r0.updatedAt < r.updatedAt →
            (syncRecord remote st r).1 = remoteUpdate remote r) ∧
         (r.updatedAt ≤ r0.updatedAt → (syncRecord remote st r).1 = remote))) ∧
    (remoteGet remote r.userId = none →
        (syncRecord remote st r).1 = remote ++ [toRow r]) ∧
    (∀ i, r.id = some i →
        (syncRecord remote st r).2 = markAsSynced st i ∧
        ∀ rec ∈ (syncRecord remote st r).2.records,
          rec.id = some i → rec.pendingSync = false) := by
  refine ⟨?_, ?_, ?_⟩
  · intro r0 h0
    constructor
    · intro hlt
      simp [syncRecord, syncRecordRemote, h0, hlt]
    · intro hle
      simp [syncRecord, syncRecordRemote, h0, not_lt.mpr hle]
  · intro h0
    simp [syncRecord, syncRecordRemote, h0]
  · intro i hi
    refine ⟨by simp [syncRecord, hi], ?_⟩
    intro rec hmem hrecid
    simp only [syncRecord, hi, markAsSynced, List.mem_map] at hmem
    obtain ⟨x, _, hx⟩ := hmem
    by_cases hxi : x.id = some i
    · simp [hxi] at hx
      simp [← hx]
    · simp [hxi] at hx
      rw [← hx] at hrecid
      exact absurd hrecid hxi

/-- Witness for `syncRecord_last_writer_wins`: a concrete record with a newer
local timestamp is pushed, and its pending flag is cleared. -/
theorem syncRecord_last_writer_wins_witness :
    (syncRecord [⟨"u1", "old", 1, "p", "d", 5⟩]
        ⟨[⟨some 1, "u1", "Alicia", 30, "p", "d", true, 9⟩], 2⟩
        ⟨some 1, "u1", "Alicia", 30, "p", "d", true, 9⟩).1 =
      remoteUpdate [⟨"u1", "old", 1, "p", "d", 5⟩]
        ⟨some 1, "u1", "Alicia", 30, "p", "d", true, 9⟩ ∧
    ∀ rec ∈ (syncRecord [⟨"u1", "old", 1, "p", "d", 5⟩]
        ⟨[⟨some 1, "u1", "Alicia", 30, "p", "d", true, 9⟩], 2⟩
        ⟨some 1, "u1", "Alicia", 30, "p", "d", true, 9⟩).2.records,
      rec.id = some 1 → rec.pendingSync = false := by
  refine ⟨((syncRecord_last_writer_wins _ _ _).1 ⟨"u1", "old", 1, "p", "d", 5⟩
      (by decide)).1 (by decide), ?_⟩
  exact ((syncRecord_last_writer_wins _ _ _).2.2 1 rfl).2

/-- C3: the sync service is single-flight.  A call to `syncPendingData` while
`isSyncing` is set returns the state untouched: no store reads (the fetch-call
counter is unchanged), no remote writes, and no status broadcasts. -/
theorem syncPendingData_single_flight (fs : SyncFaults) (now : Nat)
    (s : SyncState) (h : s.isSyncing = true) :
    syncPendingData fs now s = s := by
  simp [syncPendingData, h]

/-- Witness for `syncPendingData_single_flight` at a concrete in-flight state. -/
theorem syncPendingData_single_flight_witness :
    syncPendingData noFaults 7 ⟨true, none, ⟨[], 1⟩, [], [], 0⟩ =
      ⟨true, none, ⟨[], 1⟩, [], [], 0⟩ :=
  syncPendingData_single_flight noFaults 7 _ rfl

/-- C2 counterexample: one failing record aborts the rest of the run.  With
two pending records and a fault only in `markAsSynced` for key 1, the run
stops after record 1: record 2 is never pushed (the remote store holds only
the `u1` row) and both records keep `pendingSync = true` — even though
processing record 2 by itself would have succeeded (last conjunct).  This
contradicts the claimed best-effort per-record isolation, under which only a
pending-fetch exception may abort the run. -/
theorem syncPendingData_no_isolation_cex :
    syncPendingData ⟨fun _ => false, fun _ => false, fun i => i == 1⟩ 100
        ⟨false, none,
         ⟨[⟨some 1, "u1", "a", 1, "p", "d", true, 10⟩,
           ⟨some 2, "u2", "b", 2, "q", "e", true, 20⟩], 3⟩, [], [], 0⟩ =
      ⟨false, none,
       ⟨[⟨some 1, "u1", "a", 1, "p", "d", true, 10⟩,
         ⟨some 2, "u2", "b", 2, "q", "e", true, 20⟩], 3⟩,
       [⟨"u1", "a", 1, "p", "d", 10⟩],
       [⟨true, none, 0, none⟩, ⟨false, none, 2, some "Store error"⟩], 2⟩ ∧
    (syncRecordE ⟨fun _ => false, fun _ => false, fun i => i == 1⟩
        ⟨false, none,
         ⟨[⟨some 1, "u1", "a", 1, "p", "d", true, 10⟩,
           ⟨some 2, "u2", "b", 2, "q", "e", true, 20⟩], 3⟩, [], [], 0⟩
        ⟨some 2, "u2", "b", 2, "q", "e", true, 20⟩).2 = none := by
  constructor <;> rfl

/-- C2 (amended): a failure while processing one pending record aborts the
processing of the remaining records — an exception anywhere in the run's
`try` block (the pending-fetch or any record) reaches the `catch`, which
broadcasts the error with a `pendingCount` freshly recomputed from the store
at that moment rather than a cached count. -/
theorem syncPendingData_abort_and_fresh_recount (fs : SyncFaults) (now : Nat)
    (s s3 : SyncState) (e : String)
    (hns : s.isSyncing = false)
    (hf1 : fs.fetchErr s.fetchCalls = false)
    (hne : (getPendingSyncRecords s.store).isEmpty = false)
    (hproc : processAll fs (getPendingSyncRecords s.store)
        { s with isSyncing := true, fetchCalls := s.fetchCalls + 1,
                 broadcasts := s.broadcasts ++ [⟨true, none, 0, none⟩] } =
        (s3, some e))
    (hf2 : fs.fetchErr s3.fetchCalls = false) :
    syncPendingData fs now s =
      { s3 with isSyncing := false, fetchCalls := s3.fetchCalls + 1,
                broadcasts := s3.broadcasts ++
                  [⟨false, none, (getPendingSyncRecords s3.store).length, some e⟩] } ∧
    ∀ (r : LocalUserDetails) (rs : List LocalUserDetails) (w w' : SyncState)
      (e' : String), syncRecordE fs w r = (w', some e') →
        processAll fs (r :: rs) w = (w', some e') := by
  constructor
  · simp only [syncPendingData, hns, if_false, Bool.false_eq_true, fetchPending, hf1]
    simp only [if_false, Bool.false_eq_true, hne, hproc, catchBlock, fetchPending, hf2]
  · intro r rs w w' e' hstep
    simp [processAll, hstep]

/-- Witness for `syncPendingData_abort_and_fresh_recount` at the concrete
two-record run of the counterexample's shape (with a distinct fault key). -/
theorem syncPendingData_abort_and_fresh_recount_witness :
    syncPendingData ⟨fun _ => false, fun _ => false, fun i => i == 3⟩ 100
        ⟨false, none,
         ⟨[⟨some 3, "u3", "a", 1, "p", "d", true, 10⟩,
           ⟨some 4, "u4", "b", 2, "q", "e", true, 20⟩], 5⟩, [], [], 0⟩ =
      { (⟨false, none,
          ⟨[⟨some 3, "u3", "a", 1, "p", "d", true, 10⟩,
            ⟨some 4, "u4", "b", 2, "q", "e", true, 20⟩], 5⟩,
          [⟨"u3", "a", 1, "p", "d", 10⟩],
          [⟨true, none, 0, none⟩], 1⟩ : SyncState) with
        isSyncing := false, fetchCalls := 2,
        broadcasts := [⟨true, none, 0, none⟩] ++
          [⟨false, none, 2, some "Store error"⟩] } := by
  have h := (syncPendingData_abort_and_fresh_recount
      ⟨fun _ => false, fun _ => false, fun i => i == 3⟩ 100
      ⟨false, none,
       ⟨[⟨some 3, "u3", "a", 1, "p", "d", true, 10⟩,
         ⟨some 4, "u4", "b", 2, "q", "e", true, 20⟩], 5⟩, [], [], 0⟩
      ⟨true, none,
       ⟨[⟨some 3, "u3", "a", 1, "p", "d", true, 10⟩,
         ⟨some 4, "u4", "b", 2, "q", "e", true, 20⟩], 5⟩,
       [⟨"u3", "a", 1, "p", "d", 10⟩],
       [⟨true, none, 0, none⟩], 1⟩
      "Store error" rfl rfl rfl (by decide) rfl).1
  simpa using h

/-- Outcome of `supabase.auth.signInWithPassword`: a session user, a rejected
credential (`error` set), a response with neither error nor user, or a thrown
network error. -/
inductive RemoteSignIn
  | success (userId : String) (email : String)
  | rejected (message : String)
  | noUser
  | netError
deriving DecidableEq, Repr

/-- A `CachedUser` record of the `cachedUsers` store.  `encryptedPassword` is
the optional reversible secret kept for face login; records written by older
code lack it. -/
structure CachedUser where
  id : String
  email : String
  passwordHash : String
  encryptedPassword : Option String
  lastLogin : Nat
deriving DecidableEq, Repr

/-- An `AuthResult` as returned by the auth service functions. -/
structure AuthResult where
  success : Bool
  userId : Option String
  email : Option String
  error : Option String
  isOfflineMode : Option Bool
deriving DecidableEq, Repr

/-- The environment of the auth service: the remote sign-in outcome per
`(email, password)`, the opaque SHA-256 hash, the btoa/atob pair, the clock,
and whether `cachedUsers` store accesses throw. -/
structure AuthWorld where
  signIn : String → String → RemoteSignIn
  hash : String → String
  encrypt : String → String
  decrypt : String → String
  now : Nat
  credErr : Bool

/-- `indexedDBService.cacheUser`: `put` keyed by `id` — replace the record
with this id, or append a fresh one. -/
def cacheUser (store : List CachedUser) (u : CachedUser) : List CachedUser :=
  if store.any (fun c => c.id == u.id) then
    store.map (fun c => if c.id == u.id then u else c)
  else store ++ [u]

/-- `indexedDBService.getCachedUser`: lookup through the `email` index. -/
def getCachedUser (store : List CachedUser) (email : String) : Option CachedUser :=
  store.find? (fun c => c.email == email)

/-- `authService.loginOnline`: remote credential check; on success the
credential (hash plus reversible secret) is cached; a thrown store error is
caught as "Network error". -/
def loginOnline (w : AuthWorld) (store : List CachedUser) (email password : String) :
    AuthResult × List CachedUser :=
  match w.signIn email password with
  | .rejected msg => (⟨false, none, none, some msg, none⟩, store)
  | .success uid uemail =>
      if w.credErr then (⟨false, none, none, some "Network error", none⟩, store)
      else
        (⟨true, some uid, some uemail, none, some false⟩,
         cacheUser store ⟨uid, uemail, w.hash password, some (w.encrypt password), w.now⟩)
  | .noUser => (⟨false, none, none, some "Login failed", none⟩, store)
  | .netError => (⟨false, none, none, some "Network error", none⟩, store)

/-- `authService.loginOffline`: verify the supplied password's hash against
the cached credential; distinct errors for a missing credential and a hash
mismatch; any thrown store error is caught as "Offline login failed". -/
def loginOffline (w : AuthWorld) (store : List CachedUser) (email password : String) :
    AuthResult × List CachedUser :=
  if w.credErr then (⟨false, none, none, some "Offline login failed", none⟩, store)
  else
    match getCachedUser store email with
    | none =>
        (⟨false, none, none, some "No credentials found. Please login online first.", none⟩,
         store)
    | some cu =>
        if cu.passwordHash ≠ w.hash password then
          (⟨false, none, none, some "Invalid credentials", none⟩, store)
        else
          (⟨true, some cu.id, some cu.email, none, some true⟩,
           cacheUser store { cu with lastLogin := w.now })

/-- `authService.login`: online path first when `isOnline`, falling back to
`loginOffline` whenever the online result is not a success. -/
def login (w : AuthWorld) (store : List CachedUser) (email password : String)
    (isOnline : Bool) : AuthResult × List CachedUser :=
  if isOnline then
    let r := loginOnline w store email password
    if r.1.success = false then loginOffline w r.2 email password else r
  else loginOffline w store email password

/-- `authService.loginWithFace`: requires a cached credential for the email;
when online with a reversible secret it revalidates remotely, but a rejected
credential, an empty response or a thrown error all fall back to an
offline-mode success.  Only a missing credential or a thrown store access
fails. -/
def loginWithFace (w : AuthWorld) (store : List CachedUser) (userId email : String)
    (isOnline : Bool) : AuthResult × List CachedUser :=
  if w.credErr then (⟨false, none, none, some "Face login failed", none⟩, store)
  else
    match getCachedUser store email with
    | none =>
        (⟨false, none, none,
          some "User credentials not found. Please login with password first.", none⟩, store)
    | some cu =>
        match isOnline, cu.encryptedPassword with
        | true, some encPw =>
            (match w.signIn email (w.decrypt encPw) with
             | .success uid uemail =>
                 (⟨true, some uid, some uemail, none, some false⟩,
                  cacheUser store { cu with lastLogin := w.now })
             | .rejected _ =>
                 (⟨true, some cu.id, some cu.email, none, some true⟩,
                  cacheUser store { cu with lastLogin := w.now })
             | .noUser =>
                 (⟨true, some cu.id, some cu.email, none, some true⟩,
                  cacheUser store { cu with lastLogin := w.now })
             | .netError =>
                 (⟨true, some cu.id, some cu.email, none, some true⟩,
                  cacheUser store { cu with lastLogin := w.now }))
        | _, _ =>
            (⟨true, some cu.id, some cu.email, none, some true⟩,
             cacheUser store { cu with lastLogin := w.now })

/-- Unfolding of `cacheUser` over a cons cell. -/
lemma cacheUser_cons (c : CachedUser) (cs : List CachedUser) (u : CachedUser) :
    cacheUser (c :: cs) u =
      if c.id = u.id then u :: cs.map (fun x => if x.id == u.id then u else x)
      else c :: cacheUser cs u := by
  by_cases hc : c.id = u.id
  · have hany : (c :: cs).any (fun x => x.id == u.id) = true := by
      simp [List.any_cons, hc]
    simp [cacheUser, hany, hc]
  · have hcb : (c.id == u.id) = false := by simp [hc]
    simp only [cacheUser, List.any_cons, hcb, Bool.false_or, if_neg hc]
    by_cases h2 : cs.any (fun x => x.id == u.id) = true
    · simp [h2, hcb, hc]
    · simp [h2, hcb, hc]

/-- After `cacheUser`, lookup through the email index finds the cached record,
provided no other id holds that email (the unique-email index invariant). -/
lemma getCachedUser_cacheUser (store : List CachedUser) (u : CachedUser)
    (hwf : ∀ cu ∈ store, cu.email = u.email → cu.id = u.id) :
    getCachedUser (cacheUser store u) u.email = some u := by
  induction store with
  | nil => simp [cacheUser, getCachedUser]
  | cons c cs ih =>
    rw [cacheUser_cons]
    by_cases hc : c.id = u.id
    · simp [if_pos hc, getCachedUser]
    · have hce : c.email ≠ u.email := fun h => hc (hwf c (by simp) h)
      rw [if_neg hc]
      simp only [getCachedUser] at ih ⊢
      rw [List.find?_cons_of_neg _ (by simpa using hce)]
      exact ih (fun cu hm he => hwf cu (by simp [hm]) he)

/-- C4 counterexample: a remote rejection of the credential is retried
offline, not returned as a failure.  With the remote check rejecting every
credential and a cached credential whose hash matches, the combined online
login returns an offline-mode success instead of the rejection. -/
theorem login_rejection_retried_offline_cex :
    (login ⟨fun _ _ => RemoteSignIn.rejected "Invalid login credentials",
            fun s => s, fun s => s, fun s => s, 1000, false⟩
       [⟨"u1", "a@b.c", "pw", none, 0⟩] "a@b.c" "pw" true).1 =
      ⟨true, some "u1", some "a@b.c", none, some true⟩ := by
  rfl

/-- C4 (amended): with `isOnline = true` the combined login attempts the
remote credential check first and falls back to offline verification against
the local store on any failure of the online attempt — including a remote
rejection of the credential, which is retried offline rather than returned;
with `isOnline = false` it uses only the local store. -/
theorem login_online_first_with_fallback (w : AuthWorld) (store : List CachedUser)
    (email password : String) :
    (login w store email password false = loginOffline w store email password) ∧
    ((loginOnline w store email password).1.success = true →
        login w store email password true = loginOnline w store email password) ∧
    ((loginOnline w store email password).1.success = false →
        login w store email password true =
          loginOffline w (loginOnline w store email password).2 email password) := by
  refine ⟨by simp [login], ?_, ?_⟩
  · intro h
    simp [login, h]
  · intro h
    simp [login, h]

/-- Witness for `login_online_first_with_fallback`: a concrete rejected
online attempt dispatches to the offline path. -/
theorem login_online_first_with_fallback_witness :
    login ⟨fun _ _ => RemoteSignIn.rejected "bad", fun s => s, fun s => s,
           fun s => s, 1000, false⟩ [] "a@b.c" "x" true =
      loginOffline ⟨fun _ _ => RemoteSignIn.rejected "bad", fun s => s, fun s => s,
           fun s => s, 1000, false⟩
        (loginOnline ⟨fun _ _ => RemoteSignIn.rejected "bad", fun s => s, fun s => s,
           fun s => s, 1000, false⟩ [] "a@b.c" "x").2 "a@b.c" "x" :=
  (login_online_first_with_fallback _ [] "a@b.c" "x").2.2 rfl

/-- C7: caching a credential (as a successful online login does) and then
verifying offline with the same password succeeds; a password with a
different hash fails with "Invalid credentials"; and an email with no cached
credential fails with the distinct not-found error. -/
theorem credential_round_trip (w : AuthWorld) (store store2 : List CachedUser)
    (uid email pw pw' email' : String) (t : Nat)
    (hcred : w.credErr = false)
    (hwf : ∀ cu ∈ store, cu.email = email → cu.id = uid) :
    ((loginOffline w
        (cacheUser store ⟨uid, email, w.hash pw, some (w.encrypt pw), t⟩) email pw).1 =
        ⟨true, some uid, some email, none, some true⟩) ∧
    (w.hash pw' ≠ w.hash pw →
      (loginOffline w
          (cacheUser store ⟨uid, email, w.hash pw, some (w.encrypt pw), t⟩) email pw').1 =
        ⟨false, none, none, some "Invalid credentials", none⟩) ∧
    (getCachedUser store2 email' = none →
      (loginOffline w store2 email' pw).1 =
        ⟨false, none, none, some "No credentials found. Please login online first.", none⟩) := by
  have hfind := getCachedUser_cacheUser store ⟨uid, email, w.hash pw, some (w.encrypt pw), t⟩
    (fun cu hm he => hwf cu hm he)
  refine ⟨?_, ?_, ?_⟩
  · simp [loginOffline, hcred, hfind]
  · intro hne
    simp [loginOffline, hcred, hfind, Ne.symm hne]
  · intro hnone
    simp [loginOffline, hcred, hnone]

/-- Witness for `credential_round_trip` at a concrete world with the identity
hash, password "pw" against "other", and a fresh unknown email. -/
theorem credential_round_trip_witness :
    ((loginOffline ⟨fun _ _ => RemoteSignIn.netError, fun s => s, fun s => s,
        fun s => s, 9, false⟩
        (cacheUser [] ⟨"u1", "a@b.c", "pw", some "pw", 7⟩) "a@b.c" "pw").1 =
      ⟨true, some "u1", some "a@b.c", none, some true⟩) ∧
    ((loginOffline ⟨fun _ _ => RemoteSignIn.netError, fun s => s, fun s => s,
        fun s => s, 9, false⟩
        (cacheUser [] ⟨"u1", "a@b.c", "pw", some "pw", 7⟩) "a@b.c" "other").1 =
      ⟨false, none, none, some "Invalid credentials", none⟩) ∧
    ((loginOffline ⟨fun _ _ => RemoteSignIn.netError, fun s => s, fun s => s,
        fun s => s, 9, false⟩ [] "nobody@x" "pw").1 =
      ⟨false, none, none, some "No credentials found. Please login online first.", none⟩) := by
  have h := credential_round_trip
    ⟨fun _ _ => RemoteSignIn.netError, fun s => s, fun s => s, fun s => s, 9, false⟩
    [] [] "u1" "a@b.c" "pw" "other" "nobody@x" 7 rfl (by simp)
  exact ⟨h.1, h.2.1 (by decide), h.2.2 rfl⟩

/-- C10: whenever a cached credential exists for the email and the local
store does not throw, `loginWithFace` succeeds; every failure of the online
revalidation (rejected credential, empty response, thrown network error) and
a missing reversible secret degrade to the full offline-mode success record,
with `isOfflineMode = some true`; the result is `isOfflineMode = some false`
exactly when the online revalidation returned a session user.  It fails only
when no cached credential exists or the store access throws. -/
theorem loginWithFace_cached_success (w : AuthWorld) (store : List CachedUser)
    (userId email : String) (isOnline : Bool) :
    (w.credErr = true →
        (loginWithFace w store userId email isOnline).1 =
          ⟨false, none, none, some "Face login failed", none⟩) ∧
    (w.credErr = false →
      (∀ cu, getCachedUser store email = some cu →
          ((loginWithFace w store userId email isOnline).1.success = true ∧
           ((loginWithFace w store userId email isOnline).1.isOfflineMode = some false ↔
              isOnline = true ∧ ∃ encPw uid uemail,
                cu.encryptedPassword = some encPw ∧
                w.signIn email (w.decrypt encPw) = RemoteSignIn.success uid uemail) ∧
           (¬(isOnline = true ∧ ∃ encPw uid uemail,
                cu.encryptedPassword = some encPw ∧
                w.signIn email (w.decrypt encPw) = RemoteSignIn.success uid uemail) →
              (loginWithFace w store userId email isOnline).1 =
                ⟨true, some cu.id, some cu.email, none, some true⟩))) ∧
      (getCachedUser store email = none →
          (loginWithFace w store userId email isOnline).1 =
            ⟨false, none, none,
             some "User credentials not found. Please login with password first.", none⟩)) := by
  refine ⟨fun h => by simp [loginWithFace, h], fun h => ⟨?_, fun hn => by simp [loginWithFace, h, hn]⟩⟩
  intro cu hcu
  obtain ⟨cid, cemail, chash, cenc, clast⟩ := cu
  cases isOnline with
  | false =>
      refine ⟨by simp [loginWithFace, h, hcu], by simp [loginWithFace, h, hcu], ?_⟩
      intro _
      simp [loginWithFace, h, hcu]
  | true =>
    cases cenc with
    | none =>
        refine ⟨by simp [loginWithFace, h, hcu], by simp [loginWithFace, h, hcu], ?_⟩
        intro _
        simp [loginWithFace, h, hcu]
    | some p =>
      rcases hs : w.signIn email (w.decrypt p) with ⟨uid, uemail⟩ | ⟨msg⟩ | _ | _
      · refine ⟨by simp [loginWithFace, h, hcu, hs],
          by simp [loginWithFace, h, hcu, hs], ?_⟩
        intro hncond
        exact absurd ⟨rfl, p, uid, uemail, rfl, hs⟩ hncond
      · refine ⟨by simp [loginWithFace, h, hcu, hs],
          by simp [loginWithFace, h, hcu, hs], ?_⟩
        intro _
        simp [loginWithFace, h, hcu, hs]
      · refine ⟨by simp [loginWithFace, h, hcu, hs],
          by simp [loginWithFace, h, hcu, hs], ?_⟩
        intro _
        simp [loginWithFace, h, hcu, hs]
      · refine ⟨by simp [loginWithFace, h, hcu, hs],
          by simp [loginWithFace, h, hcu, hs], ?_⟩
        intro _
        simp [loginWithFace, h, hcu, hs]

/-- Witness for `loginWithFace_cached_success`: a cached credential with a
reversible secret, online, remote rejection — face login returns the full
offline-mode success record, `isOfflineMode = some true` included. -/
theorem loginWithFace_cached_success_witness :
    (loginWithFace ⟨fun _ _ => RemoteSignIn.rejected "bad", fun s => s, fun s => s,
        fun s => s, 3, false⟩ [⟨"u1", "e@x", "h", some "enc", 0⟩] "u1" "e@x" true).1
      = ⟨true, some "u1", some "e@x", none, some true⟩ := by
  exact (((loginWithFace_cached_success
    ⟨fun _ _ => RemoteSignIn.rejected "bad", fun s => s, fun s => s, fun s => s, 3, false⟩
    [⟨"u1", "e@x", "h", some "enc", 0⟩] "u1" "e@x" true).2 rfl).1
    ⟨"u1", "e@x", "h", some "enc", 0⟩ rfl).2.2
    (by rintro ⟨-, p, u1, u2, -, hs⟩; exact RemoteSignIn.noConfusion hs)

/-- One liveness sample: the face descriptor, the third left/right eye
landmark points, and the detection bounding box, as collected by
`performLivenessCheck`'s sampling loop. -/
structure LSample where
  descriptor : List ℚ
  leftEyeX : ℚ
  leftEyeY : ℚ
  rightEyeX : ℚ
  rightEyeY : ℚ
  boxX : ℚ
  boxY : ℚ
  boxW : ℚ
  boxH : ℚ
deriving DecidableEq, Repr

/-- `Math.max(...)` over a sample-derived list (the lists it is applied to are
nonempty once at least 4 samples were obtained). -/
def qmax : List ℚ → ℚ
  | [] => 0
  | x :: xs => xs.foldl max x

/-- The consecutive pairs `(samples[i-1], samples[i])` of a list. -/
def consecPairs {α : Type} : List α → List (α × α)
  | [] => []
  | [_] => []
  | a :: b :: rest => (a, b) :: consecPairs (b :: rest)

/-- `boxSizes`: bounding-box areas of the samples. -/
def boxSizes (samples : List LSample) : List ℚ :=
  samples.map (fun s => s.boxW * s.boxH)

/-- `avgSize`: mean bounding-box area. -/
def avgSize (samples : List LSample) : ℚ :=
  (boxSizes samples).sum / (boxSizes samples).length

/-- `maxSizeDeviation`: largest relative deviation of a box area from the
mean area. -/
def maxSizeDeviation (samples : List LSample) : ℚ :=
  qmax ((boxSizes samples).map (fun size => |size - avgSize samples| / avgSize samples))

/-- The inter-eye distance of a sample, with the host `Math.sqrt` passed in
as `sqrtQ`. -/
def eyeDistance (sqrtQ : ℚ → ℚ) (s : LSample) : ℚ :=
  sqrtQ ((s.leftEyeX - s.rightEyeX) ^ 2 + (s.leftEyeY - s.rightEyeY) ^ 2)

/-- `maxLandmarkChange`: largest relative change of the inter-eye distance
between consecutive samples. -/
def maxLandmarkChange (sqrtQ : ℚ → ℚ) (samples : List LSample) : ℚ :=
  qmax ((consecPairs samples).map (fun p =>
    |eyeDistance sqrtQ p.2 - eyeDistance sqrtQ p.1| / eyeDistance sqrtQ p.1))

/-- `avgDescriptorChange`: mean pairwise Euclidean distance between
consecutive descriptors, with `faceapi.euclideanDistance` passed in as
`dist`. -/
def avgDescriptorChange (dist : List ℚ → List ℚ → ℚ) (samples : List LSample) : ℚ :=
  ((consecPairs samples).map (fun p => dist p.1.descriptor p.2.descriptor)).sum /
    ((consecPairs samples).map (fun p => dist p.1.descriptor p.2.descriptor)).length

/-- The capture-quality failure reason for too few samples. -/
def insufficientSamplesMsg (n : Nat) : String :=
  "Could not capture enough samples (" ++ toString n ++ "/6). Please ensure good lighting."

/-- Photo-detected reason: no size variation. -/
def photoSizeMsg : String :=
  "Photo detected. Face size is too consistent. Please use a live camera."

/-- Photo-detected reason: rigid landmarks. -/
def photoLandmarkMsg : String :=
  "Photo detected. Facial landmarks are too rigid. Please use a live camera."

/-- Photo-detected reason: static descriptors. -/
def photoStaticMsg : String :=
  "Photo detected. Face appearance is too static. Please use a live camera."

/-- The final-decision failure reason. -/
def livenessFailedMsg : String :=
  "Liveness verification failed. Please ensure you are using a live camera with your actual face."

/-- The `{ passed, reason? }` result of the liveness check. -/
structure LivenessOutcome where
  passed : Bool
  reason : Option String
deriving DecidableEq, Repr

/-- The decision logic of `performLivenessCheck` on the obtained samples:
the insufficient-sample gate, then the three sequential threshold checks
with early returns, then the redundant final all-checks conjunction. -/
def performLivenessCheck (sqrtQ : ℚ → ℚ) (dist : List ℚ → List ℚ → ℚ)
    (samples : List LSample) : LivenessOutcome :=
  if samples.length < 4 then
    ⟨false, some (insufficientSamplesMsg samples.length)⟩
  else if maxSizeDeviation samples < 1/200 then
    ⟨false, some photoSizeMsg⟩
  else if maxLandmarkChange sqrtQ samples < 1/500 then
    ⟨false, some photoLandmarkMsg⟩
  else if avgDescriptorChange dist samples < 1/125 then
    ⟨false, some photoStaticMsg⟩
  else if ¬(1/200 ≤ maxSizeDeviation samples ∧
            1/500 ≤ maxLandmarkChange sqrtQ samples ∧
            1/125 ≤ avgDescriptorChange dist samples ∧
            avgDescriptorChange dist samples < 3/10) then
    ⟨false, some livenessFailedMsg⟩
  else ⟨true, none⟩

/-- C5: with at least 4 samples the liveness check passes iff all three
signals clear their thresholds simultaneously: max relative box-area
deviation ≥ 0.5%, max relative inter-eye-distance change ≥ 0.2%, and average
consecutive descriptor drift in [0.008, 0.3). -/
theorem performLivenessCheck_pass_iff (sqrtQ : ℚ → ℚ)
    (dist : List ℚ → List ℚ → ℚ) (samples : List LSample)
    (h4 : 4 ≤ samples.length) :
    (performLivenessCheck sqrtQ dist samples).passed = true ↔
      (1/200 ≤ maxSizeDeviation samples ∧
       1/500 ≤ maxLandmarkChange sqrtQ samples ∧
       1/125 ≤ avgDescriptorChange dist samples ∧
       avgDescriptorChange dist samples < 3/10) := by
  have hlt : ¬ samples.length < 4 := by omega
  unfold performLivenessCheck
  rw [if_neg hlt]
  by_cases h1 : maxSizeDeviation samples < 1/200
  · rw [if_pos h1]
    simp only [Bool.false_eq_true, false_iff]
    rintro ⟨a, -, -, -⟩
    linarith
  rw [if_neg h1]
  by_cases h2 : maxLandmarkChange sqrtQ samples < 1/500
  · rw [if_pos h2]
    simp only [Bool.false_eq_true, false_iff]
    rintro ⟨-, b, -, -⟩
    linarith
  rw [if_neg h2]
  by_cases h3 : avgDescriptorChange dist samples < 1/125
  · rw [if_pos h3]
    simp only [Bool.false_eq_true, false_iff]
    rintro ⟨-, -, c, -⟩
    linarith
  rw [if_neg h3]
  by_cases h5 : (1/200 ≤ maxSizeDeviation samples ∧
      1/500 ≤ maxLandmarkChange sqrtQ samples ∧
      1/125 ≤ avgDescriptorChange dist samples ∧
      avgDescriptorChange dist samples < 3/10)
  · rw [if_neg (not_not.mpr h5)]
    simpa using h5
  · rw [if_pos h5]
    simp only [Bool.false_eq_true, false_iff]
    exact h5

/-- Witness for `performLivenessCheck_pass_iff` at four concrete samples with
the identity standing in for the opaque square root and a constant 0.01
descriptor metric. -/
theorem performLivenessCheck_pass_iff_witness :
    4 ≤ ([⟨[1], 0, 0, 1, 0, 0, 0, 10, 10⟩, ⟨[1], 0, 0, 2, 0, 0, 0, 10, 11⟩,
          ⟨[1], 0, 0, 1, 0, 0, 0, 10, 10⟩, ⟨[1], 0, 0, 1, 0, 0, 0, 10, 10⟩] :
            List LSample).length ∧
    ((performLivenessCheck (fun q => q) (fun _ _ => 1/100)
        [⟨[1], 0, 0, 1, 0, 0, 0, 10, 10⟩, ⟨[1], 0, 0, 2, 0, 0, 0, 10, 11⟩,
         ⟨[1], 0, 0, 1, 0, 0, 0, 10, 10⟩, ⟨[1], 0, 0, 1, 0, 0, 0, 10, 10⟩]).passed = true ↔
      (1/200 ≤ maxSizeDeviation
          [⟨[1], 0, 0, 1, 0, 0, 0, 10, 10⟩, ⟨[1], 0, 0, 2, 0, 0, 0, 10, 11⟩,
           ⟨[1], 0, 0, 1, 0, 0, 0, 10, 10⟩, ⟨[1], 0, 0, 1, 0, 0, 0, 10, 10⟩] ∧
       1/500 ≤ maxLandmarkChange (fun q => q)
          [⟨[1], 0, 0, 1, 0, 0, 0, 10, 10⟩, ⟨[1], 0, 0, 2, 0, 0, 0, 10, 11⟩,
           ⟨[1], 0, 0, 1, 0, 0, 0, 10, 10⟩, ⟨[1], 0, 0, 1, 0, 0, 0, 10, 10⟩] ∧
       1/125 ≤ avgDescriptorChange (fun _ _ => 1/100)
          [⟨[1], 0, 0, 1, 0, 0, 0, 10, 10⟩, ⟨[1], 0, 0, 2, 0, 0, 0, 10, 11⟩,
           ⟨[1], 0, 0, 1, 0, 0, 0, 10, 10⟩, ⟨[1], 0, 0, 1, 0, 0, 0, 10, 10⟩] ∧
       avgDescriptorChange (fun _ _ => 1/100)
          [⟨[1], 0, 0, 1, 0, 0, 0, 10, 10⟩, ⟨[1], 0, 0, 2, 0, 0, 0, 10, 11⟩,
           ⟨[1], 0, 0, 1, 0, 0, 0, 10, 10⟩, ⟨[1], 0, 0, 1, 0, 0, 0, 10, 10⟩] < 3/10)) :=
  ⟨by decide, performLivenessCheck_pass_iff _ _ _ (by decide)⟩

/-- C6: with fewer than 4 samples the check fails with the distinct
capture-quality reason (a message different from every liveness-failure
reason), and none of the variance signals are evaluated: the outcome depends
only on the sample count, not on the samples' contents nor on the numeric
primitives. -/
theorem performLivenessCheck_insufficient (sqrtQ : ℚ → ℚ)
    (dist : List ℚ → List ℚ → ℚ) (samples : List LSample)
    (h : samples.length < 4) :
    performLivenessCheck sqrtQ dist samples =
      ⟨false, some (insufficientSamplesMsg samples.length)⟩ ∧
    (insufficientSamplesMsg samples.length ∉
      [photoSizeMsg, photoLandmarkMsg, photoStaticMsg, livenessFailedMsg]) ∧
    (∀ (sq' : ℚ → ℚ) (dist' : List ℚ → List ℚ → ℚ) (samples' : List LSample),
        samples'.length = samples.length →
        performLivenessCheck sq' dist' samples' =
          performLivenessCheck sqrtQ dist samples) := by
  refine ⟨by simp [performLivenessCheck, h], ?_, ?_⟩
  · have hn : samples.length < 4 := h
    interval_cases hl : samples.length <;> decide
  · intro sq' dist' samples' hlen
    have h' : samples'.length < 4 := hlen ▸ h
    simp [performLivenessCheck, h, h', hlen]

/-- Witness for `performLivenessCheck_insufficient` at a concrete two-sample
capture. -/
theorem performLivenessCheck_insufficient_witness :
    performLivenessCheck (fun q => q) (fun _ _ => 0)
        [⟨[1], 0, 0, 1, 0, 0, 0, 10, 10⟩, ⟨[1], 0, 0, 1, 0, 0, 0, 10, 10⟩] =
      ⟨false, some (insufficientSamplesMsg 2)⟩ :=
  (performLivenessCheck_insufficient (fun q => q) (fun _ _ => 0)
    [⟨[1], 0, 0, 1, 0, 0, 0, 10, 10⟩, ⟨[1], 0, 0, 1, 0, 0, 0, 10, 10⟩] (by decide)).1

/-- `indexedDBService.getUserDetails`: lookup through the `userId` index. -/
def findByUserId (st : DetailsStore) (uid : String) : Option LocalUserDetails :=
  st.records.find? (fun r => r.userId == uid)

/-- IndexedDB `store.put` on the `userDetails` store: with an explicit key,
replace the record under that key (or insert it, bumping the key generator
past it); with no key, insert under a freshly generated key. -/
def putDetails (st : DetailsStore) (d : LocalUserDetails) : DetailsStore :=
  match d.id with
  | some i =>
      if st.records.any (fun r => r.id == some i) then
        { records := st.records.map (fun r => if r.id == some i then d else r),
          nextId := max st.nextId (i + 1) }
      else
        { records := st.records ++ [d], nextId := max st.nextId (i + 1) }
  | none =>
      { records := st.records ++ [{ d with id := some st.nextId }],
        nextId := st.nextId + 1 }

/-- `indexedDBService.saveUserDetails` (the current version): look the userId
up through the index and, when a record exists, put the new data under the
existing surrogate id; otherwise put it as given. -/
def saveUserDetails (st : DetailsStore) (d : LocalUserDetails) : DetailsStore :=
  match findByUserId st d.userId with
  | some existing => putDetails st { d with id := existing.id }
  | none => putDetails st d

/-- The key `o` is assigned and below the generator value `n`. -/
def idBelow (n : Nat) : Option Nat → Prop
  | some i => i < n
  | none => False

instance (n : Nat) (o : Option Nat) : Decidable (idBelow n o) := by
  unfold idBelow
  cases o <;> infer_instance

/-- Well-formedness of the `userDetails` store: the unique `userId` index
holds, keys are distinct, and every stored record's key is assigned and
below the auto-increment generator. -/
def storeWF (st : DetailsStore) : Prop :=
  st.records.Pairwise (fun a b => a.userId ≠ b.userId) ∧
  st.records.Pairwise (fun a b => a.id ≠ b.id) ∧
  ∀ r ∈ st.records, idBelow st.nextId r.id

instance (st : DetailsStore) : Decidable (storeWF st) := by
  unfold storeWF
  infer_instance

/-- A pairwise-distinct key function is injective on the list's elements. -/
lemma pairwise_key_inj {α β : Type} (f : α → β) :
    ∀ {l : List α}, l.Pairwise (fun a b => f a ≠ f b) →
      ∀ a ∈ l, ∀ b ∈ l, f a = f b → a = b := by
  intro l hp
  induction hp with
  | nil => intro a ha; simp at ha
  | @cons x xs hhead htail ih =>
      intro a ha b hb hfe
      rcases List.mem_cons.mp ha with rfl | ha'
      · rcases List.mem_cons.mp hb with rfl | hb'
        · rfl
        · exact absurd hfe (hhead b hb')
      · rcases List.mem_cons.mp hb with rfl | hb'
        · exact absurd hfe.symm (hhead a ha')
        · exact ih a ha' b hb' hfe

/-- `find?` commutes with `map` under a pointwise-compatible predicate. -/
lemma find?_map_pointwise {α β : Type} (g : α → β) (p : α → Bool) (p' : β → Bool) :
    ∀ (l : List α), (∀ r ∈ l, p' (g r) = p r) →
      (l.map g).find? p' = (l.find? p).map g := by
  intro l
  induction l with
  | nil => simp
  | cons a l ih =>
      intro hpt
      have ha := hpt a (by simp)
      cases hpa : p a
      · rw [List.map_cons, List.find?_cons_of_neg _ (by simp [ha, hpa]),
            List.find?_cons_of_neg _ (by simp [hpa])]
        exact ih (fun r hr => hpt r (by simp [hr]))
      · rw [List.map_cons, List.find?_cons_of_pos _ (by simp [ha, hpa]),
            List.find?_cons_of_pos _ (by simp [hpa])]
        simp

/-- A list whose userIds are pairwise distinct holds at most one record per
userId. -/
lemma filter_userId_le_one (l : List LocalUserDetails)
    (h : l.Pairwise (fun a b => a.userId ≠ b.userId)) (uid : String) :
    (l.filter (fun r => r.userId == uid)).length ≤ 1 := by
  induction l with
  | nil => simp
  | cons a l ih =>
      cases h with
      | cons hhead htail =>
        by_cases ha : a.userId = uid
        · have hnil : l.filter (fun r => r.userId == uid) = [] := by
            rw [List.filter_eq_nil_iff]
            intro b hb
            simp only [beq_iff_eq]
            intro he
            exact hhead b hb (ha.trans he.symm)
          simp [List.filter_cons, ha, hnil]
        · simp only [List.filter_cons, beq_iff_eq, ha]
          simpa using ih htail

/-- Mapping a function that preserves a pairwise-distinct key keeps the key
pairwise distinct. -/
lemma pairwise_ne_of_map_eq {α β : Type} (g : α → α) (f : α → β) (l : List α)
    (hpt : ∀ a ∈ l, f (g a) = f a)
    (h : l.Pairwise (fun a b => f a ≠ f b)) :
    (l.map g).Pairwise (fun a b => f a ≠ f b) := by
  rw [List.pairwise_map]
  exact h.imp_of_mem (fun {a b} ha hb hne => by
    rw [hpt a ha, hpt b hb]; exact hne)

/-- `saveUserDetails` preserves store well-formedness. -/
lemma saveUserDetails_wf (st : DetailsStore) (d : LocalUserDetails)
    (hwf : storeWF st) : storeWF (saveUserDetails st d) := by
  obtain ⟨hu, hi, hb⟩ := hwf
  unfold saveUserDetails
  cases hfind : findByUserId st d.userId with
  | some e =>
      have hmem : e ∈ st.records := List.mem_of_find?_eq_some hfind
      have heuid : e.userId = d.userId := by simpa using List.find?_some hfind
      have hbe := hb e hmem
      cases hei : e.id with
      | none => rw [hei] at hbe; exact absurd hbe (by simp [idBelow])
      | some i =>
        rw [hei] at hbe
        have hilt : i < st.nextId := hbe
        have hany : st.records.any (fun r => r.id == some i) = true := by
          refine List.any_eq_true.mpr ⟨e, hmem, by simp [hei]⟩
        simp only [putDetails, hei, hany, if_pos]
        set g : LocalUserDetails → LocalUserDetails :=
          fun r => if r.id == some i then { d with id := some i } else r with hg
        have hid_pt : ∀ r ∈ st.records, (g r).id = r.id := by
          intro r _
          by_cases hr : r.id = some i
          · simp [hg, hr]
          · simp [hg, hr]
        have huid_pt : ∀ r ∈ st.records, (g r).userId = r.userId := by
          intro r hr
          by_cases hrid : r.id = some i
          · have hre : r = e := pairwise_key_inj (fun x => x.id) hi r hr e hmem
              (by show r.id = e.id; rw [hrid, hei])
            subst hre
            simp [hg, hei, heuid]
          · simp [hg, hrid]
        refine ⟨?_, ?_, ?_⟩
        · exact pairwise_ne_of_map_eq g (fun r => r.userId) st.records huid_pt hu
        · exact pairwise_ne_of_map_eq g (fun r => r.id) st.records hid_pt hi
        · intro r hr
          obtain ⟨x, hx, rfl⟩ := List.mem_map.mp hr
          rw [hid_pt x hx]
          have := hb x hx
          cases hxid : x.id with
          | none => rw [hxid] at this; exact absurd this (by simp [idBelow])
          | some j =>
              rw [hxid] at this
              simp only [idBelow] at this ⊢
              omega
  | none =>
      have hfresh : ∀ r ∈ st.records, r.userId ≠ d.userId := by
        intro r hr
        have := List.find?_eq_none.mp hfind r hr
        simpa using this
      cases hdid : d.id with
      | some j =>
        by_cases hany : st.records.any (fun r => r.id == some j) = true
        · simp only [putDetails, hdid, hany, if_pos]
          set g : LocalUserDetails → LocalUserDetails :=
            fun r => if r.id == some j then d else r with hg
          have hid_pt : ∀ r ∈ st.records, (g r).id = r.id := by
            intro r _
            by_cases hr : r.id = some j
            · simp [hg, hr, hdid]
            · simp [hg, hr]
          refine ⟨?_, ?_, ?_⟩
          · rw [List.pairwise_map]
            exact (hu.and hi).imp_of_mem (fun {a b} ha hbm hne => by
              rcases hne with ⟨hneu, hnei⟩
              by_cases haj : a.id = some j
              · by_cases hbj : b.id = some j
                · exact absurd (haj.trans hbj.symm) hnei
                · simp only [hg, haj, hbj]
                  simp only [beq_iff_eq, if_pos rfl, if_neg hbj]
                  exact fun h => hfresh b hbm h.symm
              · by_cases hbj : b.id = some j
                · simp only [hg, haj, hbj]
                  simp only [beq_iff_eq, if_neg haj, if_pos rfl]
                  exact fun h => hfresh a ha h
                · simp only [hg, beq_iff_eq, if_neg haj, if_neg hbj]
                  exact hneu)
          · exact pairwise_ne_of_map_eq g (fun r => r.id) st.records hid_pt hi
          · intro r hr
            obtain ⟨x, hx, rfl⟩ := List.mem_map.mp hr
            rw [hid_pt x hx]
            have := hb x hx
            cases hxid : x.id with
            | none => rw [hxid] at this; exact absurd this (by simp [idBelow])
            | some k =>
                rw [hxid] at this
                simp only [idBelow] at this ⊢
                omega
        · simp only [putDetails, hdid, hany, if_neg, Bool.not_eq_true]
          have hnoid : ∀ r ∈ st.records, r.id ≠ some j := by
            simpa using hany
          refine ⟨?_, ?_, ?_⟩
          · rw [List.pairwise_append]
            exact ⟨hu, by simp, by
              intro a ha b hbm
              simp only [List.mem_singleton] at hbm
              subst hbm
              exact hfresh a ha⟩
          · rw [List.pairwise_append]
            exact ⟨hi, by simp, by
              intro a ha b hbm
              simp only [List.mem_singleton] at hbm
              subst hbm
              rw [hdid]
              exact hnoid a ha⟩
          · intro r hr
            rcases List.mem_append.mp hr with hr' | hr'
            · have := hb r hr'
              cases hxid : r.id with
              | none => rw [hxid] at this; exact absurd this (by simp [idBelow])
              | some k =>
                  rw [hxid] at this
                  simp only [idBelow] at this ⊢
                  omega
            · simp only [List.mem_singleton] at hr'
              subst hr'
              rw [hdid]
              simp only [idBelow]
              omega
      | none =>
        simp only [putDetails, hdid]
        have hnoid : ∀ r ∈ st.records, r.id ≠ some st.nextId := by
          intro r hr
          have := hb r hr
          cases hxid : r.id with
          | none => simp
          | some k =>
              rw [hxid] at this
              simp only [idBelow] at this
              simp only [ne_eq, Option.some.injEq]
              omega
        refine ⟨?_, ?_, ?_⟩
        · rw [List.pairwise_append]
          exact ⟨hu, by simp, by
            intro a ha b hbm
            simp only [List.mem_singleton] at hbm
            subst hbm
            exact hfresh a ha⟩
        · rw [List.pairwise_append]
          exact ⟨hi, by simp, by
            intro a ha b hbm
            simp only [List.mem_singleton] at hbm
            subst hbm
            exact hnoid a ha⟩
        · intro r hr
          rcases List.mem_append.mp hr with hr' | hr'
          · have := hb r hr'
            cases hxid : r.id with
            | none => rw [hxid] at this; exact absurd this (by simp [idBelow])
            | some k =>
                rw [hxid] at this
                simp only [idBelow] at this ⊢
                omega
          · simp only [List.mem_singleton] at hr'
            subst hr'
            simp only [idBelow]
            omega

/-- C8: saving a profile record for a userId that already has a stored record
reuses the existing surrogate id (same record count, the stored record now
holds the new fields under the old id), well-formedness is preserved, and —
also along any sequence of saves from a fresh store — the store holds at most
one profile record per userId. -/
theorem saveUserDetails_upsert (st : DetailsStore) (d : LocalUserDetails)
    (hwf : storeWF st) :
    storeWF (saveUserDetails st d) ∧
    (∀ e, findByUserId st d.userId = some e →
        (saveUserDetails st d).records.length = st.records.length ∧
        findByUserId (saveUserDetails st d) d.userId = some { d with id := e.id }) ∧
    (∀ uid, ((saveUserDetails st d).records.filter
        (fun r => r.userId == uid)).length ≤ 1) ∧
    (∀ ds : List LocalUserDetails, ∀ uid,
        ((ds.foldl saveUserDetails ⟨[], 1⟩).records.filter
            (fun r => r.userId == uid)).length ≤ 1) := by
  have hres := saveUserDetails_wf st d hwf
  obtain ⟨hu, hi, hb⟩ := hwf
  refine ⟨hres, ?_, ?_, ?_⟩
  · intro e hfind
    have hmem : e ∈ st.records := List.mem_of_find?_eq_some hfind
    have heuid : e.userId = d.userId := by simpa using List.find?_some hfind
    have hbe := hb e hmem
    cases hei : e.id with
    | none => rw [hei] at hbe; exact absurd hbe (by simp [idBelow])
    | some i =>
      rw [hei] at hbe
      have hany : st.records.any (fun r => r.id == some i) = true :=
        List.any_eq_true.mpr ⟨e, hmem, by simp [hei]⟩
      unfold saveUserDetails
      rw [hfind]
      simp only [putDetails, hei, hany, if_pos]
      set g : LocalUserDetails → LocalUserDetails :=
        fun r => if r.id == some i then { d with id := some i } else r with hg
      have huid_pt : ∀ r ∈ st.records, (g r).userId = r.userId := by
        intro r hr
        by_cases hrid : r.id = some i
        · have hre : r = e := pairwise_key_inj (fun x => x.id) hi r hr e hmem
            (by show r.id = e.id; rw [hrid, hei])
          subst hre
          simp [hg, hei, heuid]
        · simp [hg, hrid]
      constructor
      · simp
      · show (st.records.map g).find? (fun r => r.userId == d.userId) = _
        rw [find?_map_pointwise g (fun r => r.userId == d.userId)
              (fun r => r.userId == d.userId) st.records
              (fun r hr => by simp only [huid_pt r hr])]
        have : st.records.find? (fun r => r.userId == d.userId) = some e := hfind
        rw [this]
        simp [hg, hei]
  · intro uid
    exact filter_userId_le_one _ hres.1 uid
  · have hfold : ∀ (ds : List LocalUserDetails) (st0 : DetailsStore),
        storeWF st0 → storeWF (ds.foldl saveUserDetails st0) := by
      intro ds
      induction ds with
      | nil => intro st0 h; exact h
      | cons a ds ih => intro st0 h; exact ih _ (saveUserDetails_wf _ _ h)
    intro ds uid
    exact filter_userId_le_one _ (hfold ds ⟨[], 1⟩ (by decide)).1 uid

/-- Witness for `saveUserDetails_upsert`: saving new fields for a userId that
already has a stored record keeps one record and reuses surrogate id 1. -/
theorem saveUserDetails_upsert_witness :
    (saveUserDetails ⟨[⟨some 1, "u1", "Alice", 30, "p", "d", false, 5⟩], 2⟩
        ⟨none, "u1", "Alicia", 31, "p", "d", true, 9⟩).records.length =
      (⟨[⟨some 1, "u1", "Alice", 30, "p", "d", false, 5⟩], 2⟩ :
        DetailsStore).records.length ∧
    findByUserId (saveUserDetails ⟨[⟨some 1, "u1", "Alice", 30, "p", "d", false, 5⟩], 2⟩
        ⟨none, "u1", "Alicia", 31, "p", "d", true, 9⟩) "u1" =
      some ⟨some 1, "u1", "Alicia", 31, "p", "d", true, 9⟩ :=
  (saveUserDetails_upsert ⟨[⟨some 1, "u1", "Alice", 30, "p", "d", false, 5⟩], 2⟩
      ⟨none, "u1", "Alicia", 31, "p", "d", true, 9⟩ (by decide)).2.1
    ⟨some 1, "u1", "Alice", 30, "p", "d", false, 5⟩ rfl

/-- A record of the `faceData` store (local descriptor gallery), keyed by
userId. -/
structure FaceData where
  userId : String
  faceDescriptor : List ℚ
  updatedAt : Nat
deriving DecidableEq, Repr

/-- `indexedDBService.saveFaceData`: `put` keyed by userId. -/
def saveFaceData (store : List FaceData) (fd : FaceData) : List FaceData :=
  if store.any (fun x => x.userId == fd.userId) then
    store.map (fun x => if x.userId == fd.userId then fd else x)
  else store ++ [fd]

/-- `indexedDBService.getFaceData`: lookup by userId key. -/
def getFaceData (store : List FaceData) (uid : String) : Option FaceData :=
  store.find? (fun x => x.userId == uid)

/-- The body of the local gallery loop in `handleFaceLogin`: skip empty
descriptors, and take the candidate only when its distance is below the 0.7
threshold and strictly below the current best (`Option.none` standing for the
initial `Infinity`). -/
def matchStep (dist : List ℚ → List ℚ → ℚ) (captured : List ℚ)
    (acc : Option String × Option ℚ) (fd : FaceData) : Option String × Option ℚ :=
  if fd.faceDescriptor.length ≠ 0 then
    if dist captured fd.faceDescriptor < 7/10 then
      match acc.2 with
      | none => (some fd.userId, some (dist captured fd.faceDescriptor))
      | some b =>
          if dist captured fd.faceDescriptor < b then
            (some fd.userId, some (dist captured fd.faceDescriptor))
          else acc
    else acc
  else acc

/-- The local gallery scan of `handleFaceLogin`, starting from no match and
an infinite best distance. -/
def localScan (dist : List ℚ → List ℚ → ℚ) (captured : List ℚ)
    (gallery : List FaceData) : Option String × Option ℚ :=
  gallery.foldl (matchStep dist captured) (none, none)

/-- The body of the remote gallery loop: the same matching rule, except that
an improving match is also persisted into the local gallery (cache-fill) with
`updatedAt := now`. -/
def remoteStep (dist : List ℚ → List ℚ → ℚ) (captured : List ℚ) (now : Nat)
    (acc : (Option String × Option ℚ) × List FaceData) (fd : FaceData) :
    (Option String × Option ℚ) × List FaceData :=
  if fd.faceDescriptor.length ≠ 0 then
    if dist captured fd.faceDescriptor < 7/10 then
      match acc.1.2 with
      | none =>
          ((some fd.userId, some (dist captured fd.faceDescriptor)),
           saveFaceData acc.2 ⟨fd.userId, fd.faceDescriptor, now⟩)
      | some b =>
          if dist captured fd.faceDescriptor < b then
            ((some fd.userId, some (dist captured fd.faceDescriptor)),
             saveFaceData acc.2 ⟨fd.userId, fd.faceDescriptor, now⟩)
          else acc
    else acc
  else acc

/-- The identity-resolution portion of `handleFaceLogin`: scan the local
gallery; only when no local match was found and the app is online, scan the
remote gallery (`none` = fetch error, skipped) with cache-fill; return the
matched userId and the resulting local gallery. -/
def handleFaceLoginResolve (dist : List ℚ → List ℚ → ℚ) (captured : List ℚ)
    (localGallery : List FaceData) (isOnline : Bool)
    (remoteGallery : Option (List FaceData)) (now : Nat) :
    Option String × List FaceData :=
  let m := localScan dist captured localGallery
  if m.1 = none ∧ isOnline = true then
    match remoteGallery with
    | none => (none, localGallery)
    | some rg =>
        let res := rg.foldl (remoteStep dist captured now) (m, localGallery)
        (res.1.1, res.2)
  else (m.1, localGallery)

/-- A fold preserves any invariant its step preserves. -/
lemma foldl_inv {σ α : Type} (f : σ → α → σ) (P : σ → Prop)
    (hstep : ∀ s a, P s → P (f s a)) :
    ∀ (l : List α) (s : σ), P s → P (l.foldl f s) := by
  intro l
  induction l with
  | nil => intro s hs; exact hs
  | cons a l ih => intro s hs; exact ih _ (hstep s a hs)

/-- `matchStep` keeps the no-match/no-best coupling. -/
lemma matchStep_none_inv (dist : List ℚ → List ℚ → ℚ) (captured : List ℚ)
    (acc : Option String × Option ℚ) (fd : FaceData)
    (h : acc.1 = none → acc.2 = none) :
    (matchStep dist captured acc fd).1 = none →
      (matchStep dist captured acc fd).2 = none := by
  unfold matchStep
  split_ifs with h1 h2
  · cases hb : acc.2 with
    | none => simp
    | some b =>
        simp only [hb]
        split_ifs with h3
        · simp
        · exact h
  · exact h
  · exact h

/-- `matchStep` never un-matches. -/
lemma matchStep_isSome (dist : List ℚ → List ℚ → ℚ) (captured : List ℚ)
    (acc : Option String × Option ℚ) (fd : FaceData)
    (h : acc.1.isSome = true) :
    (matchStep dist captured acc fd).1.isSome = true := by
  unfold matchStep
  split_ifs with h1 h2
  · cases hb : acc.2 with
    | none => simp
    | some b =>
        simp only [hb]
        split_ifs with h3
        · simp
        · exact h
  · exact h
  · exact h

/-- If a valid entry below threshold is in the gallery, the scan ends
matched. -/
lemma foldl_matchStep_some (dist : List ℚ → List ℚ → ℚ) (captured : List ℚ)
    (fd : FaceData) (hlen : fd.faceDescriptor.length ≠ 0)
    (hd : dist captured fd.faceDescriptor < 7/10) :
    ∀ (gallery : List FaceData) (acc : Option String × Option ℚ),
      (acc.1 = none → acc.2 = none) → fd ∈ gallery →
      ((gallery.foldl (matchStep dist captured) acc).1).isSome = true := by
  intro gallery
  induction gallery with
  | nil => intro acc _ hmem; simp at hmem
  | cons a g ih =>
      intro acc hinv hmem
      rcases List.mem_cons.mp hmem with rfl | hmem'
      · simp only [List.foldl_cons]
        apply foldl_inv (matchStep dist captured) (fun s => s.1.isSome = true)
          (fun s x hs => matchStep_isSome dist captured s x hs)
        cases hacc : acc.1 with
        | some u =>
            exact matchStep_isSome dist captured acc fd (by simp [hacc])
        | none =>
            have hb := hinv hacc
            unfold matchStep
            rw [if_pos hlen, if_pos hd, hb]
            simp
      · simp only [List.foldl_cons]
        exact ih (matchStep dist captured acc a)
          (matchStep_none_inv dist captured acc a hinv) hmem'

/-- Saving a face record makes it the value found under its userId. -/
lemma getFaceData_saveFaceData (store : List FaceData) (fd : FaceData) :
    getFaceData (saveFaceData store fd) fd.userId = some fd := by
  by_cases hany : store.any (fun x => x.userId == fd.userId) = true
  · have hsome : (store.find? (fun x => x.userId == fd.userId)).isSome = true := by
      rw [List.find?_isSome]
      obtain ⟨x, hx, hpx⟩ := List.any_eq_true.mp hany
      exact ⟨x, hx, hpx⟩
    obtain ⟨x0, hx0⟩ := Option.isSome_iff_exists.mp hsome
    unfold saveFaceData getFaceData
    rw [if_pos hany]
    rw [find?_map_pointwise (fun x => if x.userId == fd.userId then fd else x)
          (fun x => x.userId == fd.userId) (fun x => x.userId == fd.userId) store
          (fun r _ => by
            by_cases hr : r.userId = fd.userId
            · simp [hr]
            · simp [hr])]
    rw [hx0]
    have : x0.userId = fd.userId := by simpa using List.find?_some hx0
    simp [this]
  · unfold saveFaceData getFaceData
    rw [if_neg hany]
    have hnone : store.find? (fun x => x.userId == fd.userId) = none := by
      rw [List.find?_eq_none]
      intro x hx
      simp only [beq_iff_eq]
      intro he
      exact hany (List.any_eq_true.mpr ⟨x, hx, by simp [he]⟩)
    rw [List.find?_append, hnone]
    simp

/-- The cache-fill invariant of the remote loop: whenever a match is held,
the matching descriptor has been persisted into the carried local gallery
under the matched userId, with distance below threshold. -/
def remoteInv (dist : List ℚ → List ℚ → ℚ) (captured : List ℚ) (now : Nat)
    (acc : (Option String × Option ℚ) × List FaceData) : Prop :=
  (acc.1.1 = none → acc.1.2 = none) ∧
  ∀ u, acc.1.1 = some u → ∃ desc, desc.length ≠ 0 ∧
    dist captured desc < 7/10 ∧ getFaceData acc.2 u = some ⟨u, desc, now⟩

/-- `remoteStep` preserves the cache-fill invariant. -/
lemma remoteStep_inv (dist : List ℚ → List ℚ → ℚ) (captured : List ℚ)
    (now : Nat) (acc : (Option String × Option ℚ) × List FaceData)
    (fd : FaceData) (h : remoteInv dist captured now acc) :
    remoteInv dist captured now (remoteStep dist captured now acc fd) := by
  obtain ⟨h1, h2⟩ := h
  unfold remoteStep
  split_ifs with hlen hd
  · cases hb : acc.1.2 with
    | none =>
        simp only
        refine ⟨by simp, ?_⟩
        intro u hu
        obtain rfl : fd.userId = u := by simpa using hu
        exact ⟨fd.faceDescriptor, hlen, hd,
          getFaceData_saveFaceData acc.2 ⟨fd.userId, fd.faceDescriptor, now⟩⟩
    | some b =>
        simp only
        split_ifs with h3
        · refine ⟨by simp, ?_⟩
          intro u hu
          obtain rfl : fd.userId = u := by simpa using hu
          exact ⟨fd.faceDescriptor, hlen, hd,
            getFaceData_saveFaceData acc.2 ⟨fd.userId, fd.faceDescriptor, now⟩⟩
        · exact ⟨h1, h2⟩
  · exact ⟨h1, h2⟩
  · exact ⟨h1, h2⟩

/-- C9: local-first resolution with cache-fill.  A local match is returned
without touching the gallery; with no local match and no reachable remote
gallery the resolution fails and the gallery is untouched; a remote-only
match persists the matched descriptor (valid and below the 0.7 threshold)
into the local gallery under the matched userId before returning, so a
subsequent local scan with the same captured descriptor is matched; and the
scan keeps the first strict minimum: a later candidate at a distance not
strictly below the current best never steals the match, while a strictly
smaller distance below threshold takes it. -/
theorem faceLogin_resolution (dist : List ℚ → List ℚ → ℚ) (captured : List ℚ)
    (localGallery remoteG : List FaceData) (now : Nat) :
    (∀ uid, (localScan dist captured localGallery).1 = some uid →
        ∀ (isOnline : Bool) (rg : Option (List FaceData)),
          handleFaceLoginResolve dist captured localGallery isOnline rg now =
            (some uid, localGallery)) ∧
    ((localScan dist captured localGallery).1 = none →
        (∀ rg, handleFaceLoginResolve dist captured localGallery false rg now =
            (none, localGallery)) ∧
        handleFaceLoginResolve dist captured localGallery true none now =
          (none, localGallery)) ∧
    ((localScan dist captured localGallery).1 = none →
        ∀ uid store',
          handleFaceLoginResolve dist captured localGallery true (some remoteG) now =
            (some uid, store') →
          ∃ desc, desc.length ≠ 0 ∧ dist captured desc < 7/10 ∧
            getFaceData store' uid = some ⟨uid, desc, now⟩ ∧
            (localScan dist captured store').1.isSome = true) ∧
    (∀ fd : FaceData, fd.faceDescriptor.length ≠ 0 →
        dist captured fd.faceDescriptor < 7/10 →
        ∀ bv, (localScan dist captured localGallery).2 = some bv →
          ((bv ≤ dist captured fd.faceDescriptor →
              localScan dist captured (localGallery ++ [fd]) =
                localScan dist captured localGallery) ∧
           (dist captured fd.faceDescriptor < bv →
              localScan dist captured (localGallery ++ [fd]) =
                (some fd.userId, some (dist captured fd.faceDescriptor))))) := by
  refine ⟨?_, ?_, ?_, ?_⟩
  · intro uid hm isOnline rg
    unfold handleFaceLoginResolve
    rw [if_neg (by simp [hm])]
    rw [hm]
  · intro hm
    constructor
    · intro rg
      unfold handleFaceLoginResolve
      rw [if_neg (by simp)]
      rw [hm]
    · unfold handleFaceLoginResolve
      rw [if_pos (by simp [hm])]
  · intro hm uid store' hres
    have hminv : (localScan dist captured localGallery).1 = none →
        (localScan dist captured localGallery).2 = none := by
      intro h
      exact foldl_inv (matchStep dist captured) (fun s => s.1 = none → s.2 = none)
        (fun s a hs => matchStep_none_inv dist captured s a hs)
        localGallery (none, none) (fun _ => rfl) h
    unfold handleFaceLoginResolve at hres
    rw [if_pos (by simp [hm])] at hres
    simp only at hres
    have hinv : remoteInv dist captured now
        (remoteG.foldl (remoteStep dist captured now)
          (localScan dist captured localGallery, localGallery)) := by
      apply foldl_inv (remoteStep dist captured now) (remoteInv dist captured now)
        (fun s a hs => remoteStep_inv dist captured now s a hs)
      exact ⟨fun _ => hminv hm, fun u hu => absurd (hm ▸ hu) (by simp [hm])⟩
    have hres1 : (remoteG.foldl (remoteStep dist captured now)
        (localScan dist captured localGallery, localGallery)).1.1 = some uid :=
      congrArg Prod.fst hres
    have hres2 : (remoteG.foldl (remoteStep dist captured now)
        (localScan dist captured localGallery, localGallery)).2 = store' :=
      congrArg Prod.snd hres
    obtain ⟨desc, hlen, hd, hget⟩ := hinv.2 uid hres1
    rw [hres2] at hget
    have hmem : (⟨uid, desc, now⟩ : FaceData) ∈ store' :=
      List.mem_of_find?_eq_some hget
    exact ⟨desc, hlen, hd, hget,
      foldl_matchStep_some dist captured ⟨uid, desc, now⟩ hlen hd store'
        (none, none) (fun _ => rfl) hmem⟩
  · intro fd hlen hd bv hbv
    have happ : localScan dist captured (localGallery ++ [fd]) =
        matchStep dist captured (localScan dist captured localGallery) fd := by
      simp [localScan, List.foldl_append]
    constructor
    · intro hge
      rw [happ]
      unfold matchStep
      rw [if_pos hlen, if_pos hd, hbv]
      simp only [if_neg (not_lt.mpr hge)]
    · intro hlt
      rw [happ]
      unfold matchStep
      rw [if_pos hlen, if_pos hd, hbv]
      simp only [if_pos hlt]

/-- Witness for `faceLogin_resolution`: no local gallery, one remote entry at
distance 1/2 — it is cached locally and the next local scan matches. -/
theorem faceLogin_resolution_witness :
    ∃ desc : List ℚ, desc.length ≠ 0 ∧
      (fun (_ y : List ℚ) => y.headI) ([] : List ℚ) desc < 7/10 ∧
      getFaceData [⟨"r1", [(1 : ℚ)/2], 5⟩] "r1" = some ⟨"r1", desc, 5⟩ ∧
      (localScan (fun (_ y : List ℚ) => y.headI) []
          [⟨"r1", [(1 : ℚ)/2], 5⟩]).1.isSome = true :=
  (faceLogin_resolution (fun (_ y : List ℚ) => y.headI) [] []
      [⟨"r1", [(1 : ℚ)/2], 99⟩] 5).2.2.1 rfl "r1" [⟨"r1", [(1 : ℚ)/2], 5⟩]
    (by norm_num [handleFaceLoginResolve, localScan, remoteStep, matchStep, saveFaceData])

end OfflineLogin
